import Mathlib

/-!
Verification development for the excel-to-pdf-converter repository.

The repository's core is the grid-to-page layout and rendering engine in
`createPDF` (src/api/convert.js and its iterations src/unnamed/part_001,
src/unnamed/part_003).  This file gives a shallow embedding of that engine
over exact rational arithmetic and proves/refutes the frozen claims about it.

The canonical single-page-forced renderer is the one of src/unnamed/part_001
(A4 portrait, margin 15, fixed addressed region A1:O49, width factor 4.8,
height factor 0.95, forced height scaling).  The flowing-pagination variant
is the one of src/unnamed/part_003 (margin 25, per-row page breaks).
JavaScript floating point is modelled by exact rationals.
-/

namespace ExcelToPdf

/-- JavaScript `x || d` for an optional numeric field: `undefined` and `0`
are falsy and yield the default. -/
def jsOrQ (x : Option ℚ) (d : ℚ) : ℚ :=
  match x with
  | none => d
  | some v => if v = 0 then d else v

/-- A merged-cell rectangle, 1-based inclusive coordinates, parsed in the
source from a range string such as "A1:B2". -/
structure MergeRange where
  startRow : ℕ
  startCol : ℕ
  endRow : ℕ
  endCol : ℕ
deriving DecidableEq, Repr

/-- An embedded image together with its top-left anchor cell in 0-based
native coordinates (`img.range.tl.nativeRow/nativeCol` in the source);
only anchors whose media payload was found are listed. -/
structure ImageAnchor where
  tlRow : ℕ
  tlCol : ℕ
deriving DecidableEq, Repr

/-- The shapes a `cell.value` can take by the time the renderer reads it
(src/unnamed/part_001 lines 236-245): null/undefined, boolean, a rich-text
object with a truthy `.text`, a formula object with a `.result` (already
stringified), or a plain value (already stringified). -/
inductive CellValue where
  | vNull : CellValue
  | vBool (b : Bool) : CellValue
  | vRich (text : String) : CellValue
  | vFormula (result : String) : CellValue
  | vPlain (s : String) : CellValue
deriving DecidableEq, Repr

/-- Which border edges a cell's style requests.  The part_001/convert.js
renderers never read this field; it is carried so that claims about border
handling can be stated. -/
structure BorderSpec where
  top : Bool
  left : Bool
  bottom : Bool
  right : Bool
deriving DecidableEq, Repr

/-- The per-cell data the renderer reads: value, fill color
(`cell.style.fill.fgColor.argb`), font flags/size/color, border request and
alignment strings. -/
structure CellData where
  value : CellValue
  fillArgb : Option String
  fontBold : Bool
  fontItalic : Bool
  fontSize : Option ℚ
  fontColorArgb : Option String
  border : Option BorderSpec
  alignH : Option String
  alignV : Option String
deriving DecidableEq, Repr

/-- The worksheet model as the renderer consumes it: column widths and row
heights (absent means the spreadsheet gave none), the merge ranges, the
image anchors and the cell contents. -/
structure Worksheet where
  colWidth : ℕ → Option ℚ
  rowHeight : ℕ → Option ℚ
  merges : List MergeRange
  imageAnchors : List ImageAnchor
  cell : ℕ → ℕ → CellData

/-- A4 page width in points, as pdfkit reports `doc.page.width`. -/
def pageWidthA4 : ℚ := 595.28

/-- A4 page height in points, as pdfkit reports `doc.page.height`. -/
def pageHeightA4 : ℚ := 841.89

/-- The uniform page margin of the part_001 renderer. -/
def margin1 : ℚ := 15

/-- First rendered row (part_001 forces the region A1:O49). -/
def minRow : ℕ := 1

/-- Last rendered row. -/
def maxRow : ℕ := 49

/-- First rendered column. -/
def minCol : ℕ := 1

/-- Last rendered column (column O). -/
def maxCol : ℕ := 15

/-- Nominal column width before page fitting:
`(column.width || 10) * 4.8` (part_001 line 107). -/
def nominalColWidth (ws : Worksheet) (c : ℕ) : ℚ :=
  jsOrQ (ws.colWidth c) 10 * 4.8

/-- `availableWidth = doc.page.width - margins.left - margins.right`. -/
def availableWidth1 : ℚ := pageWidthA4 - margin1 - margin1

/-- `totalColWidth`: sum of the nominal widths of the addressed columns. -/
def totalColWidth (ws : Worksheet) : ℚ :=
  ∑ c in Finset.Icc minCol maxCol, nominalColWidth ws c

/-- `widthScale = availableWidth / totalColWidth` (part_001 line 113),
applied unconditionally (upscaling allowed). -/
def widthScale (ws : Worksheet) : ℚ :=
  availableWidth1 / totalColWidth ws

/-- Scaled column width: `colWidths[col] *= widthScale`. -/
def scaledColWidth (ws : Worksheet) (c : ℕ) : ℚ :=
  nominalColWidth ws c * widthScale ws

/-- Nominal row height before page fitting:
`(row.height || 15) * 0.95` (part_001 line 123). -/
def nominalRowHeight (ws : Worksheet) (r : ℕ) : ℚ :=
  jsOrQ (ws.rowHeight r) 15 * 0.95

/-- `availableHeight = doc.page.height - margins.top - margins.bottom`. -/
def availableHeight1 : ℚ := pageHeightA4 - margin1 - margin1

/-- `totalHeight`: sum of the nominal heights of the addressed rows. -/
def totalRowHeight (ws : Worksheet) : ℚ :=
  ∑ r in Finset.Icc minRow maxRow, nominalRowHeight ws r

/-- `heightScale = availableHeight / totalHeight` (part_001 line 129),
applied unconditionally (force fit to one page). -/
def heightScale (ws : Worksheet) : ℚ :=
  availableHeight1 / totalRowHeight ws

/-- Scaled row height: `rowHeights[row] *= heightScale`. -/
def scaledRowHeight (ws : Worksheet) (r : ℕ) : ℚ :=
  nominalRowHeight ws r * heightScale ws

/-- Whether cell (r, c) lies inside merge range m (inclusive bounds). -/
def inMerge (m : MergeRange) (r c : ℕ) : Bool :=
  m.startRow ≤ r && r ≤ m.endRow && m.startCol ≤ c && c ≤ m.endCol

/-- The merge range covering cell (r, c), if any.  The source builds a map
keyed by cell; with the model invariant that merge ranges never overlap,
taking the first containing range is equivalent. -/
def mergeAt (ws : Worksheet) (r c : ℕ) : Option MergeRange :=
  ws.merges.find? (fun m => inMerge m r c)

/-- Whether (r, c) is the top-left anchor of merge range m. -/
def isTopLeftOf (m : MergeRange) (r c : ℕ) : Bool :=
  r == m.startRow && c == m.startCol

/-- A cell is absorbed when it belongs to a merge range but is not the
range's top-left anchor; the render loop skips it entirely. -/
def absorbed (ws : Worksheet) (r c : ℕ) : Bool :=
  match mergeAt ws r c with
  | some m => !(isTopLeftOf m r c)
  | none => false

/-- `colWidths[c] || 0`: the scaled width where the column is inside the
addressed band, else 0 (the JS object has no such key). -/
def colWidthOr0 (ws : Worksheet) (c : ℕ) : ℚ :=
  if minCol ≤ c ∧ c ≤ maxCol then scaledColWidth ws c else 0

/-- `rowHeights[r] || 0`: the scaled height where the row is inside the
addressed band, else 0. -/
def rowHeightOr0 (ws : Worksheet) (r : ℕ) : ℚ :=
  if minRow ≤ r ∧ r ≤ maxRow then scaledRowHeight ws r else 0

/-- Rendered width of a merge range: the loop of part_001 lines 189-192
sums `colWidths[c] || 0` for c from startCol to endCol. -/
def mergeWidth (ws : Worksheet) (m : MergeRange) : ℚ :=
  ∑ c in Finset.Icc m.startCol m.endCol, colWidthOr0 ws c

/-- Rendered height of a merge range: the loop of part_001 lines 193-196
sums `rowHeights[r] || 0` for r from startRow to endRow. -/
def mergeHeight (ws : Worksheet) (m : MergeRange) : ℚ :=
  ∑ r in Finset.Icc m.startRow m.endRow, rowHeightOr0 ws r

/-- Box width drawn for a visible cell: the merged span's width when the
cell anchors a merge, otherwise its own scaled column width. -/
def finalWidth (ws : Worksheet) (r c : ℕ) : ℚ :=
  match mergeAt ws r c with
  | some m => if isTopLeftOf m r c then mergeWidth ws m else scaledColWidth ws c
  | none => scaledColWidth ws c

/-- Box height drawn for a visible cell. -/
def finalHeight (ws : Worksheet) (r c : ℕ) : ℚ :=
  match mergeAt ws r c with
  | some m => if isTopLeftOf m r c then mergeHeight ws m else scaledRowHeight ws r
  | none => scaledRowHeight ws r

/-- Left edge of column c: the closed form of the `currentX` accumulator,
which starts at the left margin and adds every scaled column width to the
left of c (absorbed cells advance it too). -/
def cellX (ws : Worksheet) (c : ℕ) : ℚ :=
  margin1 + ∑ i in Finset.Ico minCol c, scaledColWidth ws i

/-- Top edge of row r: the closed form of the `currentY` accumulator. -/
def cellY (ws : Worksheet) (r : ℕ) : ℚ :=
  margin1 + ∑ i in Finset.Ico minRow r, scaledRowHeight ws i

/-- The value of one hexadecimal digit, upper or lower case
(the source regex is case-insensitive). -/
def hexDigitVal (c : Char) : Option ℕ :=
  if 48 ≤ c.toNat ∧ c.toNat ≤ 57 then some (c.toNat - 48)
  else if 97 ≤ c.toNat ∧ c.toNat ≤ 102 then some (c.toNat - 87)
  else if 65 ≤ c.toNat ∧ c.toNat ≤ 70 then some (c.toNat - 55)
  else none

/-- `parseInt(pair, 16)` on a two-hex-digit capture group. -/
def hexPairVal (hi lo : Char) : Option ℕ :=
  match hexDigitVal hi, hexDigitVal lo with
  | some a, some b => some (16 * a + b)
  | _, _ => none

/-- The regex match of `hexToRgb` on the character list: exactly six hex
digits grouped into three pairs, each parsed with `parseInt(_, 16)`. -/
def rgbOfChars : List Char → Option (ℕ × ℕ × ℕ)
  | [a, b, c, d, e, f] =>
    match hexPairVal a b, hexPairVal c d, hexPairVal e f with
    | some r, some g, some bl => some (r, g, bl)
    | _, _, _ => none
  | _ => none

/-- The alpha-stripping step of `hexToRgb`:
`if (hex.length === 8) hex = hex.substring(2)`. -/
def stripAlpha (hex : String) : String :=
  if hex.length = 8 then hex.drop 2 else hex

/-- `hexToRgb` from src/api/convert.js lines 571-582 (identical in
part_001): strip the alpha pair of an 8-character code, then match exactly
six hex digits (anchored, case-insensitive) into three byte values;
anything else yields null. -/
def hexToRgb (hex : String) : Option (ℕ × ℕ × ℕ) :=
  rgbOfChars (stripAlpha hex).data

/-- Whether a character list is exactly six hex digits. -/
def isHex6Chars : List Char → Bool
  | [a, b, c, d, e, f] =>
    (hexDigitVal a).isSome && (hexDigitVal b).isSome && (hexDigitVal c).isSome
      && (hexDigitVal d).isSome && (hexDigitVal e).isSome && (hexDigitVal f).isSome
  | _ => false

/-- Whether a string is exactly six hex digits (what the source's anchored
regex accepts). -/
def isHex6 (s : String) : Bool :=
  isHex6Chars s.data

/-- `columnLetterToNumber` (src/api/convert.js lines 214-220): fold
`column = column * 26 + (charCode - 64)` over the letters. -/
def columnLetterToNumber (letter : String) : ℕ :=
  letter.data.foldl (fun column ch => column * 26 + (ch.toNat - 64)) 0

/-- Whether every character of a string is an uppercase letter A-Z. -/
def isUpperAZ (s : String) : Bool :=
  s.data.all (fun c => 65 ≤ c.toNat && c.toNat ≤ 90)

/-- The draw instructions the renderer can emit, in page coordinates. -/
inductive DrawInstr where
  | fillRect (x y w h : ℚ) (rgb : ℕ × ℕ × ℕ) : DrawInstr
  | strokeRect (x y w h : ℚ) (color : String) (lineWidth : ℚ) : DrawInstr
  | drawImage (x y w h : ℚ) : DrawInstr
  | drawText (text : String) (x y : ℚ) (width : ℚ) (fontSize : ℚ) (font : String)
      (color : String) (align : String) (wrap : Bool) : DrawInstr
deriving DecidableEq, Repr

/-- Recognizer for fill instructions. -/
def isFillOf : DrawInstr → Bool
  | .fillRect _ _ _ _ _ => true
  | _ => false

/-- Recognizer for stroke instructions. -/
def isStrokeOf : DrawInstr → Bool
  | .strokeRect _ _ _ _ _ _ => true
  | _ => false

/-- Recognizer for image instructions. -/
def isImageOf : DrawInstr → Bool
  | .drawImage _ _ _ _ => true
  | _ => false

/-- Recognizer for text instructions. -/
def isTextOf : DrawInstr → Bool
  | .drawText _ _ _ _ _ _ _ _ _ => true
  | _ => false

/-- The string the renderer extracts from a cell value
(part_001 lines 236-245): booleans map to a checkmark or empty, rich text
and formula results to their carried strings, plain values verbatim. -/
def cellText : CellValue → String
  | .vNull => ""
  | .vBool b => if b then "✓" else ""
  | .vRich t => t
  | .vFormula s => s
  | .vPlain s => s

/-- The checkmark normalization of part_001 lines 250-252, applied after
the non-empty test. -/
def displayText (s : String) : String :=
  if s = "TRUE" ∨ s = "true" ∨ s = "1" then "✓" else s

/-- Font variant selection from bold/italic flags (part_001 lines 255-262). -/
def fontName (bold italic : Bool) : String :=
  if bold && italic then "Helvetica-BoldOblique"
  else if bold then "Helvetica-Bold"
  else if italic then "Helvetica-Oblique"
  else "Helvetica"

/-- part_001 line 267: `Math.max(Math.min(baseFontSize * heightScale, 9), 6)`. -/
def fontSizeP1 (base scale : ℚ) : ℚ :=
  max (min (base * scale) 9) 6

/-- src/api/convert.js line 518: `Math.max(fontSize * heightScale, 7)`. -/
def fontSizeConvert (base scale : ℚ) : ℚ :=
  max (base * scale) 7

/-- Whether an image whose media payload was found is anchored at this cell:
the source keys its image map by `(tl.nativeRow + 1, tl.nativeCol + 1)`. -/
def hasImage (ws : Worksheet) (r c : ℕ) : Bool :=
  ws.imageAnchors.any (fun a => a.tlRow + 1 == r && a.tlCol + 1 == c)

/-- Fill emission for one cell (part_001 lines 199-210): only when the style
carries a truthy argb code that is neither of the two no-fill sentinels and
parses to an RGB triple. -/
def fillInstrs (cell : CellData) (x y w h : ℚ) : List DrawInstr :=
  match cell.fillArgb with
  | some color =>
    if color ≠ "" ∧ color ≠ "FFFFFFFF" ∧ color ≠ "00000000" then
      match hexToRgb color with
      | some rgb => [DrawInstr.fillRect x y w h rgb]
      | none => []
    else []
  | none => []

/-- Text color resolution (part_001 lines 271-272): the parsed font color
when present and well-formed, else black. -/
def resolvedTextColor (cell : CellData) : String :=
  match cell.fontColorArgb with
  | some argb =>
    match hexToRgb argb with
    | some _ => argb
    | none => "#000000"
  | none => "#000000"

/-- Text emission for one cell (part_001 lines 232-308): nothing when an
image occupies the cell; otherwise the display string, when non-empty, is
drawn with the scaled-and-clamped font size, wrapping exactly when the cell
is merged or the string is longer than 30 characters. -/
def textInstrs (ws : Worksheet) (r c : ℕ) (x y w h : ℚ) : List DrawInstr :=
  if hasImage ws r c then []
  else
    let cell := ws.cell r c
    let raw := cellText cell.value
    if raw = "" then []
    else
      let s := displayText raw
      let fsize := fontSizeP1 (jsOrQ cell.fontSize 9) (heightScale ws)
      let vAlign := cell.alignV.getD "middle"
      let padding : ℚ := 1.5
      let ty :=
        if vAlign = "top" then y + padding
        else if vAlign = "bottom" then y + h - fsize - padding
        else y + (h - fsize) / 2
      let shouldWrap := (mergeAt ws r c).isSome || decide (30 < s.length)
      [DrawInstr.drawText s (x + padding) ty (w - padding * 2) fsize
        (fontName cell.fontBold cell.fontItalic)
        (resolvedTextColor cell)
        (cell.alignH.getD "left") shouldWrap]

/-- Image emission for one cell (part_001 lines 216-230). -/
def imageInstrs (ws : Worksheet) (r c : ℕ) (x y w h : ℚ) : List DrawInstr :=
  if hasImage ws r c then [DrawInstr.drawImage (x + 1) (y + 1) (w - 2) (h - 2)]
  else []

/-- Everything the renderer emits for one visible (non-absorbed) cell, in
source order: conditional fill, unconditional black 0.3pt border stroke,
conditional image, conditional text (part_001 lines 199-309). -/
def cellDraw (ws : Worksheet) (r c : ℕ) : List DrawInstr :=
  let x := cellX ws c
  let y := cellY ws r
  let w := finalWidth ws r c
  let h := finalHeight ws r c
  fillInstrs (ws.cell r c) x y w h
    ++ [DrawInstr.strokeRect x y w h "#000000" 0.3]
    ++ imageInstrs ws r c x y w h
    ++ textInstrs ws r c x y w h

/-- The full instruction stream of one render invocation: rows 1..49 in
order, columns 1..15 in order, skipping absorbed cells. -/
def render (ws : Worksheet) : List DrawInstr :=
  ((List.range' minRow (maxRow - minRow + 1)).map (fun r =>
    ((List.range' minCol (maxCol - minCol + 1)).map (fun c =>
      if absorbed ws r c then [] else cellDraw ws r c)).flatten)).flatten

/-! ### The flowing-pagination variant (src/unnamed/part_003) -/

/-- The uniform page margin of the part_003 renderer. -/
def margin3 : ℚ := 25

/-- Row height under the flowing variant:
`Math.max((row.height || 15) * 1.2, 15)` (part_003 line 132). -/
def rowHeightP3 (ws : Worksheet) (r : ℕ) : ℚ :=
  max (jsOrQ (ws.rowHeight r) 15 * 1.2) 15

/-- `pageHeight = doc.page.height - doc.page.margins.bottom`
(part_003 line 136): the y coordinate content may not pass. -/
def pageBottom3 : ℚ := pageHeightA4 - margin3

/-- Usable vertical extent of one page under the flowing variant: content
runs from the top margin down to `pageBottom3`. -/
def pageCapacity3 : ℚ := pageBottom3 - margin3

/-- The pagination state, 0-based page index and current y, after the
flowing renderer has processed rows 1..n (part_003 lines 156-164 and 291):
before each row, if `currentY + rowHeight > pageHeight` a new page starts
at the top margin; after the row, `currentY += rowHeight`. -/
def pagAux (heights : ℕ → ℚ) : ℕ → ℕ × ℚ
  | 0 => (0, margin3)
  | n + 1 =>
    let st := pagAux heights n
    let h := heights (n + 1)
    if st.2 + h > pageBottom3 then (st.1 + 1, margin3 + h) else (st.1, st.2 + h)

/-- The 0-based page index the flowing renderer draws row r on. -/
def rowPage (heights : ℕ → ℚ) (r : ℕ) : ℕ :=
  (pagAux heights r).1

/-- The y coordinate at which the flowing renderer draws the top of row r. -/
def rowStartY (heights : ℕ → ℚ) (r : ℕ) : ℚ :=
  (pagAux heights r).2 - heights r

/-! ### Concrete worksheets used as witnesses and counterexamples -/

/-- A cell with no value, no style: every optional field absent. -/
def emptyCell : CellData :=
  { value := .vNull, fillArgb := none, fontBold := false, fontItalic := false,
    fontSize := none, fontColorArgb := none, border := none,
    alignH := none, alignV := none }

/-- A bare worksheet: default widths and heights everywhere, no merges, no
images, all cells empty. -/
def wsBare : Worksheet :=
  { colWidth := fun _ => none, rowHeight := fun _ => none,
    merges := [], imageAnchors := [], cell := fun _ _ => emptyCell }

/-- A worksheet whose cell (1,1) has text but no border request. -/
def wsNoBorder : Worksheet :=
  { wsBare with
    cell := fun r c =>
      if r = 1 ∧ c = 1 then { emptyCell with value := .vPlain "x" } else emptyCell }

/-- A worksheet whose cell (1,1) carries the opaque-white fill sentinel. -/
def wsWhiteFill : Worksheet :=
  { wsBare with
    cell := fun r c =>
      if r = 1 ∧ c = 1 then { emptyCell with fillArgb := some "FFFFFFFF" }
      else emptyCell }

/-- A worksheet whose cell (1,1) carries the fully-transparent fill
sentinel. -/
def wsTransFill : Worksheet :=
  { wsBare with
    cell := fun r c =>
      if r = 1 ∧ c = 1 then { emptyCell with fillArgb := some "00000000" }
      else emptyCell }

/-- A worksheet with an image anchored at cell (5,2) (native (4,1)) whose
anchor cell also holds the text "Total". -/
def wsImageText : Worksheet :=
  { wsBare with
    imageAnchors := [{ tlRow := 4, tlCol := 1 }],
    cell := fun r c =>
      if r = 5 ∧ c = 2 then { emptyCell with value := .vPlain "Total" }
      else emptyCell }

/-- A worksheet with one merge region spanning rows 2-3, columns 1-2. -/
def wsMerged : Worksheet :=
  { wsBare with
    merges := [{ startRow := 2, startCol := 1, endRow := 3, endCol := 2 }] }

/-- A worksheet for the flowing variant: row 1 is very tall (550 units),
rows 2 and 3 (which form a merge region) are 100 units each, everything
else defaulted. -/
def wsPagSplit : Worksheet :=
  { wsBare with
    rowHeight := fun r =>
      if r = 1 then some 550 else if r = 2 ∨ r = 3 then some 100 else none,
    merges := [{ startRow := 2, startCol := 1, endRow := 3, endCol := 2 }] }

/-! ### Helper lemmas -/

lemma jsOrQ_pos (x : Option ℚ) (d : ℚ) (hx : 0 ≤ x.getD 0) (hd : 0 < d) :
    0 < jsOrQ x d := by
  rcases x with _ | v
  · simpa [jsOrQ] using hd
  · simp only [jsOrQ]
    split
    · exact hd
    · rcases lt_or_eq_of_le (by simpa using hx) with h | h
      · exact h
      · simp_all

lemma nominalColWidth_pos (ws : Worksheet) (c : ℕ)
    (h : 0 ≤ (ws.colWidth c).getD 0) : 0 < nominalColWidth ws c := by
  have := jsOrQ_pos (ws.colWidth c) 10 h (by norm_num)
  unfold nominalColWidth
  positivity

lemma totalColWidth_pos (ws : Worksheet)
    (h : ∀ c, 0 ≤ (ws.colWidth c).getD 0) : 0 < totalColWidth ws := by
  unfold totalColWidth
  apply Finset.sum_pos
  · intro c _
    exact nominalColWidth_pos ws c (h c)
  · exact ⟨minCol, by simp [minCol, maxCol]⟩

/-! ### Claims -/

/-- C1: under the single-page-forced policy, the sum of the scaled column
widths of the addressed region equals (hence is at most, within any
nonnegative tolerance) the available page width, because the uniform scale
factor availableWidth / totalWidth is applied to every column. -/
theorem C1_scaled_widths_fit_page (ws : Worksheet)
    (h : ∀ c, 0 ≤ (ws.colWidth c).getD 0) :
    (∑ c in Finset.Icc minCol maxCol, scaledColWidth ws c) = availableWidth1 ∧
    (∑ c in Finset.Icc minCol maxCol, scaledColWidth ws c) ≤ availableWidth1 := by
  have ht : totalColWidth ws ≠ 0 := ne_of_gt (totalColWidth_pos ws h)
  have heq : (∑ c in Finset.Icc minCol maxCol, scaledColWidth ws c)
      = availableWidth1 := by
    unfold scaledColWidth widthScale
    rw [← Finset.sum_mul, ← totalColWidth]
    field_simp
  exact ⟨heq, le_of_eq heq⟩

/-- C1 witness: the default worksheet satisfies the hypothesis and the
conclusion. -/
theorem C1_scaled_widths_fit_page_witness :
    (∑ c in Finset.Icc minCol maxCol, scaledColWidth wsBare c) = availableWidth1 ∧
    (∑ c in Finset.Icc minCol maxCol, scaledColWidth wsBare c) ≤ availableWidth1 :=
  C1_scaled_widths_fit_page wsBare (fun c => by simp [wsBare])

/-- C2: the box rendered for a merge region R, anchored at R's top-left
cell, has width the sum of the scaled widths of the columns R spans and
height the sum of the scaled heights of the rows R spans; its right edge
meets the left edge of the next column after the span and its bottom edge
meets the top edge of the next row after the span, so it covers the
absorbed cells exactly, with no gap and no overlap. -/
theorem C2_merge_box_exact (ws : Worksheet) (m : MergeRange)
    (hfind : mergeAt ws m.startRow m.startCol = some m)
    (hr1 : minRow ≤ m.startRow) (hr2 : m.startRow ≤ m.endRow)
    (hr3 : m.endRow ≤ maxRow)
    (hc1 : minCol ≤ m.startCol) (hc2 : m.startCol ≤ m.endCol)
    (hc3 : m.endCol ≤ maxCol) :
    finalWidth ws m.startRow m.startCol
        = ∑ c in Finset.Icc m.startCol m.endCol, scaledColWidth ws c
    ∧ finalHeight ws m.startRow m.startCol
        = ∑ r in Finset.Icc m.startRow m.endRow, scaledRowHeight ws r
    ∧ cellX ws m.startCol + finalWidth ws m.startRow m.startCol
        = cellX ws (m.endCol + 1)
    ∧ cellY ws m.startRow + finalHeight ws m.startRow m.startCol
        = cellY ws (m.endRow + 1) := by
  have hw : finalWidth ws m.startRow m.startCol
      = ∑ c in Finset.Icc m.startCol m.endCol, scaledColWidth ws c := by
    unfold finalWidth
    rw [hfind]
    simp only [isTopLeftOf, beq_self_eq_true, Bool.and_self, if_true]
    unfold mergeWidth
    refine Finset.sum_congr rfl (fun c hcmem => ?_)
    rw [Finset.mem_Icc] at hcmem
    unfold colWidthOr0
    rw [if_pos ⟨le_trans hc1 hcmem.1, le_trans hcmem.2 hc3⟩]
  have hh : finalHeight ws m.startRow m.startCol
      = ∑ r in Finset.Icc m.startRow m.endRow, scaledRowHeight ws r := by
    unfold finalHeight
    rw [hfind]
    simp only [isTopLeftOf, beq_self_eq_true, Bool.and_self, if_true]
    unfold mergeHeight
    refine Finset.sum_congr rfl (fun r hrmem => ?_)
    rw [Finset.mem_Icc] at hrmem
    unfold rowHeightOr0
    rw [if_pos ⟨le_trans hr1 hrmem.1, le_trans hrmem.2 hr3⟩]
  have hx : cellX ws m.startCol + finalWidth ws m.startRow m.startCol
      = cellX ws (m.endCol + 1) := by
    rw [hw]
    unfold cellX
    rw [← Finset.sum_Ico_consecutive (fun i => scaledColWidth ws i) hc1
      (by omega : m.startCol ≤ m.endCol + 1)]
    rw [Nat.Ico_succ_right]
    ring
  have hy : cellY ws m.startRow + finalHeight ws m.startRow m.startCol
      = cellY ws (m.endRow + 1) := by
    rw [hh]
    unfold cellY
    rw [← Finset.sum_Ico_consecutive (fun i => scaledRowHeight ws i) hr1
      (by omega : m.startRow ≤ m.endRow + 1)]
    rw [Nat.Ico_succ_right]
    ring
  exact ⟨hw, hh, hx, hy⟩

/-- C2 witness: the merge rows 2-3 x columns 1-2 of `wsMerged`. -/
theorem C2_merge_box_exact_witness :
    finalWidth wsMerged 2 1
        = ∑ c in Finset.Icc 1 2, scaledColWidth wsMerged c
    ∧ finalHeight wsMerged 2 1
        = ∑ r in Finset.Icc 2 3, scaledRowHeight wsMerged r
    ∧ cellX wsMerged 1 + finalWidth wsMerged 2 1 = cellX wsMerged 3
    ∧ cellY wsMerged 2 + finalHeight wsMerged 2 1 = cellY wsMerged 4 :=
  C2_merge_box_exact wsMerged
    { startRow := 2, startCol := 1, endRow := 3, endCol := 2 }
    (by decide) (by decide) (by decide) (by decide) (by decide) (by decide)
    (by decide)

lemma fillInstrs_no_stroke (cd : CellData) (x y w h : ℚ) :
    (fillInstrs cd x y w h).countP isStrokeOf = 0 := by
  unfold fillInstrs
  rcases cd.fillArgb with _ | color
  · simp
  · simp only
    split
    · cases hx : hexToRgb color <;> simp [isStrokeOf]
    · simp

lemma imageInstrs_no_stroke (ws : Worksheet) (r c : ℕ) (x y w h : ℚ) :
    (imageInstrs ws r c x y w h).countP isStrokeOf = 0 := by
  unfold imageInstrs
  split <;> simp [isStrokeOf]

lemma textInstrs_no_stroke (ws : Worksheet) (r c : ℕ) (x y w h : ℚ) :
    (textInstrs ws r c x y w h).countP isStrokeOf = 0 := by
  unfold textInstrs
  split
  · simp
  · simp only
    split
    · simp
    · simp [isStrokeOf]

/-- C3 counterexample: cell (1,1) of `wsNoBorder` is visible, holds text,
and its resolved style requests no border edge at all, yet the engine
emits a stroke-rectangle draw instruction for it — refuting "for a cell
whose style has no border, no stroke is emitted". -/
theorem C3_counterexample_borderless_stroke :
    (wsNoBorder.cell 1 1).border = none
    ∧ absorbed wsNoBorder 1 1 = false
    ∧ (cellDraw wsNoBorder 1 1).any isStrokeOf = true := by
  refine ⟨by decide, by decide, ?_⟩
  unfold cellDraw
  simp only [List.any_append, List.any_cons, isStrokeOf, Bool.or_true, Bool.true_or]

/-- C3 amended: for every visible (non-absorbed) cell position the engine
emits exactly one stroke-rectangle draw instruction, unconditionally, with
fixed black color and fixed 0.3pt line width, regardless of whether the
cell's style requests any border edge. -/
theorem C3_amended_unconditional_stroke (ws : Worksheet) (r c : ℕ) :
    (cellDraw ws r c).countP isStrokeOf = 1 := by
  unfold cellDraw
  simp only [List.countP_append, fillInstrs_no_stroke, imageInstrs_no_stroke,
    textInstrs_no_stroke]
  simp [isStrokeOf, List.countP_cons]

/-- C4 counterexample: in `wsPagSplit` the merge region spanning rows 2-3
has total height 240, far below one page's capacity (791.89), yet the
flowing renderer of part_003 draws row 2 on page 0 and row 3 on page 1:
the region is split across pages (and no flag of any kind exists in the
code).  This refutes "a region whose height fits one page is never
split". -/
theorem C4_counterexample_merge_split :
    ({ startRow := 2, startCol := 1, endRow := 3, endCol := 2 } : MergeRange)
        ∈ wsPagSplit.merges
    ∧ rowHeightP3 wsPagSplit 2 + rowHeightP3 wsPagSplit 3 ≤ pageCapacity3
    ∧ rowPage (rowHeightP3 wsPagSplit) 2 = 0
    ∧ rowPage (rowHeightP3 wsPagSplit) 3 = 1 := by
  refine ⟨by decide, by norm_num [rowHeightP3, wsPagSplit, wsBare, jsOrQ,
    pageCapacity3, pageBottom3, pageHeightA4, margin3], ?_, ?_⟩
  · show (pagAux (rowHeightP3 wsPagSplit) 2).1 = 0
    norm_num [pagAux, rowHeightP3, wsPagSplit, wsBare, jsOrQ, pageBottom3,
      pageHeightA4, margin3]
  · show (pagAux (rowHeightP3 wsPagSplit) 3).1 = 1
    norm_num [pagAux, rowHeightP3, wsPagSplit, wsBare, jsOrQ, pageBottom3,
      pageHeightA4, margin3]

/-- C4 amended: the flowing pagination of part_003 is decided row by row
with no merge-region awareness: each row either stays on the current page
(exactly when its height still fits above the page bottom, the y cursor
advancing by its height) or is the first row of the next page, drawn at
the top margin.  Consequently a merge region whose rows straddle such a
boundary is split across pages, whatever its height, and nothing is
flagged. -/
theorem C4_amended_rowwise_pagination (heights : ℕ → ℚ) (r : ℕ) :
    (rowPage heights (r + 1) = rowPage heights r
      ∧ (pagAux heights (r + 1)).2 = (pagAux heights r).2 + heights (r + 1)
      ∧ (pagAux heights r).2 + heights (r + 1) ≤ pageBottom3)
    ∨ (rowPage heights (r + 1) = rowPage heights r + 1
      ∧ rowStartY heights (r + 1) = margin3
      ∧ pageBottom3 < (pagAux heights r).2 + heights (r + 1)) := by
  unfold rowPage rowStartY
  by_cases hsplit : (pagAux heights r).2 + heights (r + 1) > pageBottom3
  · right
    rw [show pagAux heights (r + 1)
        = (((pagAux heights r).1 + 1), margin3 + heights (r + 1)) by
      rw [pagAux]
      simp [hsplit]]
    exact ⟨rfl, by ring, hsplit⟩
  · left
    rw [show pagAux heights (r + 1)
        = ((pagAux heights r).1, (pagAux heights r).2 + heights (r + 1)) by
      rw [pagAux]
      simp [hsplit]]
    exact ⟨rfl, rfl, le_of_not_lt hsplit⟩

lemma fillInstrs_sentinel (cd : CellData)
    (h : cd.fillArgb = some "FFFFFFFF" ∨ cd.fillArgb = some "00000000")
    (x y w hh : ℚ) : fillInstrs cd x y w hh = [] := by
  rcases h with h | h <;>
    · simp only [fillInstrs, h]
      rw [if_neg (by decide)]

lemma imageInstrs_no_fill (ws : Worksheet) (r c : ℕ) (x y w h : ℚ) :
    (imageInstrs ws r c x y w h).any isFillOf = false := by
  unfold imageInstrs
  split <;> simp [isFillOf]

lemma textInstrs_no_fill (ws : Worksheet) (r c : ℕ) (x y w h : ℚ) :
    (textInstrs ws r c x y w h).any isFillOf = false := by
  unfold textInstrs
  split
  · simp
  · simp only
    split
    · simp
    · simp [isFillOf]

/-- C5: a cell whose resolved fill color code is one of the two reserved
no-fill sentinels, `FFFFFFFF` (opaque white) or `00000000` (fully
transparent), produces no fill-rectangle draw instruction. -/
theorem C5_sentinel_fill_skipped (ws : Worksheet) (r c : ℕ)
    (h : (ws.cell r c).fillArgb = some "FFFFFFFF"
      ∨ (ws.cell r c).fillArgb = some "00000000") :
    (cellDraw ws r c).any isFillOf = false := by
  simp only [cellDraw]
  rw [fillInstrs_sentinel _ h]
  simp only [List.nil_append, List.any_cons, List.any_nil, List.any_append,
    imageInstrs_no_fill, textInstrs_no_fill, isFillOf, Bool.or_false,
    Bool.false_or]

/-- C5 witness: both sentinel codes, at cell (1,1) of the two concrete
worksheets carrying them. -/
theorem C5_sentinel_fill_skipped_witness :
    (cellDraw wsWhiteFill 1 1).any isFillOf = false
    ∧ (cellDraw wsTransFill 1 1).any isFillOf = false :=
  ⟨C5_sentinel_fill_skipped wsWhiteFill 1 1 (Or.inl (by decide)),
   C5_sentinel_fill_skipped wsTransFill 1 1 (Or.inr (by decide))⟩

lemma imageInstrs_no_text (ws : Worksheet) (r c : ℕ) (x y w h : ℚ) :
    (imageInstrs ws r c x y w h).any isTextOf = false := by
  unfold imageInstrs
  split <;> simp [isTextOf]

lemma textInstrs_of_image (ws : Worksheet) (r c : ℕ) (x y w h : ℚ)
    (himg : hasImage ws r c = true) : textInstrs ws r c x y w h = [] := by
  unfold textInstrs
  rw [if_pos himg]

lemma fillInstrs_no_text (cd : CellData) (x y w h : ℚ) :
    (fillInstrs cd x y w h).any isTextOf = false := by
  unfold fillInstrs
  rcases cd.fillArgb with _ | color
  · simp
  · simp only
    split
    · cases hx : hexToRgb color <;> simp [isTextOf]
    · simp

/-- C6: a cell that holds both a non-empty text value and an image anchored
at that cell yields a draw-image instruction and no draw-text instruction:
image presence suppresses text rendering for that cell. -/
theorem C6_image_suppresses_text (ws : Worksheet) (r c : ℕ)
    (himg : hasImage ws r c = true)
    (_htext : cellText (ws.cell r c).value ≠ "") :
    (cellDraw ws r c).any isImageOf = true
    ∧ (cellDraw ws r c).any isTextOf = false := by
  constructor
  · unfold cellDraw
    simp [List.any_append, imageInstrs, himg, isImageOf]
  · unfold cellDraw
    simp only [List.any_append, List.any_cons, List.any_nil,
      fillInstrs_no_text, imageInstrs_no_text, textInstrs_of_image ws r c _ _ _ _ himg,
      isTextOf, Bool.or_false, Bool.false_or]

/-- C6 witness: cell (5,2) of `wsImageText` holds the text "Total" and an
image anchored there. -/
theorem C6_image_suppresses_text_witness :
    (cellDraw wsImageText 5 2).any isImageOf = true
    ∧ (cellDraw wsImageText 5 2).any isTextOf = false :=
  C6_image_suppresses_text wsImageText 5 2 (by decide) (by decide)

/-- C7 counterexample: a text cell with nominal font size 20 under vertical
scale 1 is rendered by part_001 at 9pt, not at "nominal times scale clamped
below by the floor" (which would give 20 whether the floor is 6pt or 7pt):
the part_001 variant additionally clamps the size from above at 9pt. -/
theorem C7_counterexample_font_cap :
    fontSizeP1 20 1 = 9
    ∧ fontSizeP1 20 1 ≠ max (20 * 1 : ℚ) 6
    ∧ fontSizeP1 20 1 ≠ max (20 * 1 : ℚ) 7 := by
  refine ⟨?_, ?_, ?_⟩ <;> norm_num [fontSizeP1]

/-- C7 amended: the rendered font size is the nominal size (default 9)
times the vertical scale factor, clamped below by a fixed legibility floor
— 6pt in the part_001 variant, 7pt in the convert.js variant — and, in the
part_001 variant only, additionally clamped above at 9pt.  The emitted
size is never below the variant's floor; whenever the cap does not bind
(scaled size at most 9 for part_001; at least 7 for convert.js, whose
clamp is floor-only) the claimed floor-clamp formula holds exactly. -/
theorem C7_amended_font_floor (base scale : ℚ) :
    6 ≤ fontSizeP1 base scale
    ∧ 7 ≤ fontSizeConvert base scale
    ∧ (base * scale ≤ 9 → fontSizeP1 base scale = max (base * scale) 6)
    ∧ (7 ≤ base * scale → fontSizeConvert base scale = base * scale) := by
  refine ⟨le_max_right _ _, le_max_right _ _, ?_, ?_⟩
  · intro h
    unfold fontSizeP1
    rw [min_eq_left h]
  · intro h
    unfold fontSizeConvert
    rw [max_eq_left h]

/-- C7 witness: nominal 8pt at scale 1 — below the cap, above the
convert.js floor — takes the claimed values in both variants. -/
theorem C7_amended_font_floor_witness :
    6 ≤ fontSizeP1 8 1
    ∧ 7 ≤ fontSizeConvert 8 1
    ∧ fontSizeP1 8 1 = max (8 * 1 : ℚ) 6
    ∧ fontSizeConvert 8 1 = 8 * 1 :=
  ⟨(C7_amended_font_floor 8 1).1, (C7_amended_font_floor 8 1).2.1,
   (C7_amended_font_floor 8 1).2.2.1 (by norm_num),
   (C7_amended_font_floor 8 1).2.2.2 (by norm_num)⟩

lemma hexDigitVal_le (c : Char) (v : ℕ) (h : hexDigitVal c = some v) :
    v ≤ 15 := by
  unfold hexDigitVal at h
  split_ifs at h <;> simp_all <;> omega

lemma hexPairVal_le (hi lo : Char) (v : ℕ) (h : hexPairVal hi lo = some v) :
    v ≤ 255 := by
  unfold hexPairVal at h
  cases h1 : hexDigitVal hi <;> cases h2 : hexDigitVal lo <;> simp_all
  have := hexDigitVal_le hi _ h1
  have := hexDigitVal_le lo _ h2
  omega

lemma hexPairVal_isSome (hi lo : Char) :
    (hexPairVal hi lo).isSome
      = ((hexDigitVal hi).isSome && (hexDigitVal lo).isSome) := by
  unfold hexPairVal
  cases h1 : hexDigitVal hi <;> cases h2 : hexDigitVal lo <;> simp

lemma rgbOfChars_bounds (l : List Char) (r g b : ℕ)
    (h : rgbOfChars l = some (r, g, b)) : r ≤ 255 ∧ g ≤ 255 ∧ b ≤ 255 := by
  match l with
  | [] | [_] | [_, _] | [_, _, _] | [_, _, _, _] | [_, _, _, _, _] =>
    simp [rgbOfChars] at h
  | _ :: _ :: _ :: _ :: _ :: _ :: _ :: _ =>
    simp [rgbOfChars] at h
  | [a, b1, c, d, e, f] =>
    unfold rgbOfChars at h
    cases h1 : hexPairVal a b1 <;> cases h2 : hexPairVal c d <;>
      cases h3 : hexPairVal e f <;> simp_all
    obtain ⟨hr, hg, hb⟩ := h
    subst hr
    subst hg
    subst hb
    exact ⟨hexPairVal_le _ _ _ h1, hexPairVal_le _ _ _ h2,
      hexPairVal_le _ _ _ h3⟩

lemma rgbOfChars_isSome_iff (l : List Char) :
    (rgbOfChars l).isSome = isHex6Chars l := by
  match l with
  | [] | [_] | [_, _] | [_, _, _] | [_, _, _, _] | [_, _, _, _, _] =>
    simp [rgbOfChars, isHex6Chars]
  | _ :: _ :: _ :: _ :: _ :: _ :: _ :: _ =>
    simp [rgbOfChars, isHex6Chars]
  | [a, b1, c, d, e, f] =>
    unfold rgbOfChars isHex6Chars
    cases h1 : hexPairVal a b1 <;> cases h2 : hexPairVal c d <;>
      cases h3 : hexPairVal e f <;>
      simp_all [← hexPairVal_isSome, h1, h2, h3]

/-- C8: `hexToRgb` strips the leading alpha pair of an 8-character code and
parses the remaining six hex digits into three integers, each in 0-255;
any input that is not six valid hex digits after alpha stripping yields
`none` (the caller's default: black text / no fill) — the function is
total, it never throws. -/
theorem C8_color_resolution (s : String) (r g b : ℕ) :
    (hexToRgb s = some (r, g, b) → r ≤ 255 ∧ g ≤ 255 ∧ b ≤ 255)
    ∧ ((hexToRgb s).isSome = isHex6 (stripAlpha s)) := by
  constructor
  · intro h
    exact rgbOfChars_bounds (stripAlpha s).data r g b h
  · exact rgbOfChars_isSome_iff (stripAlpha s).data

/-- C8 witness: the well-formed 8-digit code "FF4A90D2" parses to
(74, 144, 210), all within 0-255, and the isSome/isHex6 equivalence holds
there. -/
theorem C8_color_resolution_witness :
    (74 ≤ 255 ∧ 144 ≤ 255 ∧ 210 ≤ 255)
    ∧ ((hexToRgb "FF4A90D2").isSome = isHex6 (stripAlpha "FF4A90D2")) :=
  ⟨(C8_color_resolution "FF4A90D2" 74 144 210).1 (by decide),
   (C8_color_resolution "FF4A90D2" 74 144 210).2⟩

/-- C9: rendering is a pure function of the worksheet: two invocations on
equal inputs produce identical draw-instruction sequences.  The embedded
`render` is deterministic by construction, mirroring that `createPDF`
consults no state outside its arguments and mutates none that survives the
call. -/
theorem C9_render_deterministic (ws1 ws2 : Worksheet) (h : ws1 = ws2) :
    render ws1 = render ws2 := by
  rw [h]

/-- C9 witness: two renders of the bare worksheet agree. -/
theorem C9_render_deterministic_witness : render wsBare = render wsBare :=
  C9_render_deterministic wsBare wsBare rfl

/-- The digit fold underlying `columnLetterToNumber`, on the digit list. -/
def colFold (l : List ℕ) : ℕ :=
  l.foldl (fun a d => a * 26 + d) 0

lemma columnLetterToNumber_eq_colFold (s : String) :
    columnLetterToNumber s = colFold (s.data.map (fun ch => ch.toNat - 64)) := by
  unfold columnLetterToNumber colFold
  rw [List.foldl_map]

lemma colFold_concat (l : List ℕ) (d : ℕ) :
    colFold (l ++ [d]) = 26 * colFold l + d := by
  simp [colFold, List.foldl_append]
  ring

lemma colFold_inj :
    ∀ l1 l2 : List ℕ, (∀ d ∈ l1, 1 ≤ d ∧ d ≤ 26) → (∀ d ∈ l2, 1 ≤ d ∧ d ≤ 26) →
      colFold l1 = colFold l2 → l1 = l2 := by
  intro l1
  induction l1 using List.reverseRecOn with
  | nil =>
    intro l2 _ h2 heq
    rcases List.eq_nil_or_concat l2 with rfl | ⟨t2, d2, rfl⟩
    · rfl
    · exfalso
      simp only [List.concat_eq_append] at h2 heq
      have hd := (h2 d2 (by simp)).1
      rw [colFold_concat] at heq
      simp [colFold] at heq
      omega
  | append_singleton t1 d1 ih =>
    intro l2 h1 h2 heq
    rcases List.eq_nil_or_concat l2 with rfl | ⟨t2, d2, rfl⟩
    · exfalso
      have hd := (h1 d1 (by simp)).1
      rw [colFold_concat] at heq
      simp [colFold] at heq
      omega
    · simp only [List.concat_eq_append] at h2 heq ⊢
      rw [colFold_concat, colFold_concat] at heq
      have hd1 := h1 d1 (by simp)
      have hd2 := h2 d2 (by simp)
      have hsplit : d1 = d2 ∧ colFold t1 = colFold t2 := by omega
      rw [hsplit.1,
        ih t2 (fun d hd => h1 d (by simp [hd])) (fun d hd => h2 d (by simp [hd]))
          hsplit.2]

lemma char_of_toNat_eq (a b : Char) (h : a.toNat = b.toNat) : a = b := by
  have := congrArg Char.ofNat h
  simpa [Char.ofNat_toNat] using this

lemma mapDigits_inj :
    ∀ l1 l2 : List Char,
      (∀ c ∈ l1, 65 ≤ c.toNat ∧ c.toNat ≤ 90) →
      (∀ c ∈ l2, 65 ≤ c.toNat ∧ c.toNat ≤ 90) →
      l1.map (fun c => c.toNat - 64) = l2.map (fun c => c.toNat - 64) →
      l1 = l2 := by
  intro l1
  induction l1 with
  | nil =>
    intro l2 _ _ h
    cases l2 <;> simp_all
  | cons a t1 ih =>
    intro l2 h1 h2 h
    cases l2 with
    | nil => simp at h
    | cons b t2 =>
      simp only [List.map_cons, List.cons.injEq] at h
      have ha := h1 a (by simp)
      have hb := h2 b (by simp)
      have hab : a = b := char_of_toNat_eq a b (by omega)
      rw [hab,
        ih t2 (fun c hc => h1 c (by simp [hc])) (fun c hc => h2 c (by simp [hc]))
          h.2]

lemma isUpperAZ_bounds (s : String) (h : isUpperAZ s = true) :
    ∀ c ∈ s.data, 65 ≤ c.toNat ∧ c.toNat ≤ 90 := by
  intro c hc
  have := List.all_eq_true.mp h c hc
  simpa using this

/-- C10: `columnLetterToNumber` realizes bijective base-26 on non-empty
uppercase strings: "A" is 1, "Z" is 26, "AA" is 27; the result is always
at least 1; and the mapping is injective on such strings. -/
theorem C10_column_letter_to_number :
    (columnLetterToNumber "A" = 1 ∧ columnLetterToNumber "Z" = 26
      ∧ columnLetterToNumber "AA" = 27)
    ∧ ∀ s t : String, isUpperAZ s = true → isUpperAZ t = true →
        s ≠ "" → t ≠ "" →
        1 ≤ columnLetterToNumber s
        ∧ (columnLetterToNumber s = columnLetterToNumber t → s = t) := by
  refine ⟨⟨by decide, by decide, by decide⟩, ?_⟩
  intro s t hs ht hsne htne
  have hsd : s.data ≠ [] := fun hnil => hsne (String.ext (by simp [hnil]))
  constructor
  · rcases List.eq_nil_or_concat s.data with hnil | ⟨l, c, hcat⟩
    · exact absurd hnil hsd
    · rw [columnLetterToNumber_eq_colFold, hcat, List.concat_eq_append,
        List.map_append, List.map_singleton, colFold_concat]
      have hc := isUpperAZ_bounds s hs c (by rw [hcat]; simp)
      omega
  · intro heq
    rw [columnLetterToNumber_eq_colFold, columnLetterToNumber_eq_colFold] at heq
    have hdigs : ∀ u : String, isUpperAZ u = true →
        ∀ d ∈ u.data.map (fun ch => ch.toNat - 64), 1 ≤ d ∧ d ≤ 26 := by
      intro u hu d hd
      rw [List.mem_map] at hd
      obtain ⟨c, hc, rfl⟩ := hd
      have := isUpperAZ_bounds u hu c hc
      omega
    have hmap := colFold_inj _ _ (hdigs s hs) (hdigs t ht) heq
    exact String.ext (mapDigits_inj s.data t.data
      (isUpperAZ_bounds s hs) (isUpperAZ_bounds t ht) hmap)

/-- C10 witness: the hypotheses hold at the concrete string "AB" (column
28), and the theorem yields positivity and (trivially) injectivity there. -/
theorem C10_column_letter_to_number_witness :
    1 ≤ columnLetterToNumber "AB" ∧ ("AB" : String) = "AB" :=
  ⟨(C10_column_letter_to_number.2 "AB" "AB" (by decide) (by decide)
      (by decide) (by decide)).1,
   (C10_column_letter_to_number.2 "AB" "AB" (by decide) (by decide)
      (by decide) (by decide)).2 rfl⟩

end ExcelToPdf
